import Mathlib

/-!
Verification development for the svelte-migration-action repository.

The TypeScript sources are shallowly embedded as executable Lean
definitions:

* `SvelteMigrationAnalyser.analyzeFile` / `analyzeFiles` (src/analyser.ts)
  become `analyzeFile` / `analyzeFiles` below.  File contents are strings;
  `content.split('\n')` is embedded as the executable `jsSplit` on lists of
  characters, and each rule regex of `getMigrationPatterns` is embedded as
  an executable Boolean matcher over a list of characters that mirrors the
  backtracking semantics of the corresponding JavaScript regular
  expression (an existential over match start positions and over the
  splits chosen for `+` / `*` quantifiers).
* the `fs.readFile` collaborator becomes an explicit function
  `String → Except String String`, the `AnthropicService.analyzeSvelteFile`
  collaborator an explicit function returning `Except String (List String)`
  whose `error` case models a thrown exception.
* `generate_summary` (src/index.ts) and
  `AnthropicService.parseClaudeSuggestions` (code-quality-plan.md) are
  embedded as string-building / string-parsing functions.
-/

/-! ### Character classes of JavaScript regular expressions -/

/-- JavaScript `\w`: ASCII letters, digits and underscore. -/
def isWordChar (c : Char) : Bool :=
  c.isAlphanum || c == '_'

/-- JavaScript `\s` restricted to the characters that can actually occur
here (the scanned text is a single line, already split on `'\n'`). -/
def isJsSpace (c : Char) : Bool :=
  c == ' ' || c == '\t' || c == '\n' || c == '\r' || c == '\x0b' || c == '\x0c'

/-! ### A small matcher combinator library (continuation style)

Each combinator decides whether a regex fragment can match a prefix of the
given character list such that the continuation `k` accepts the remaining
suffix.  `+` and `*` quantifiers existentially try every split, which is
exactly the language accepted by a backtracking engine. -/

/-- Match the literal character list, then continue with `k`. -/
def litThen : List Char → (List Char → Bool) → List Char → Bool
  | [], k, l => k l
  | _ :: _, _, [] => false
  | c :: cs, k, d :: ds => c == d && litThen cs k ds

/-- Match the literal string `s`, then continue with `k`. -/
def lit (s : String) (k : List Char → Bool) (l : List Char) : Bool :=
  litThen s.toList k l

/-- Accept any suffix: the end of a regex. -/
def trueK : List Char → Bool := fun _ => true

/-- Does `l` start with the literal string `s`?  (Used for the negative
lookaheads `(?!...)`.) -/
def startsWithLit (s : String) (l : List Char) : Bool :=
  lit s trueK l

/-- `\s*` then `k` (tries every split, as backtracking does). -/
def spacesStarThen (k : List Char → Bool) : List Char → Bool
  | [] => k []
  | c :: rest => k (c :: rest) || (isJsSpace c && spacesStarThen k rest)

/-- `\s+` then `k`. -/
def spacesPlusThen (k : List Char → Bool) : List Char → Bool
  | [] => false
  | c :: rest => isJsSpace c && spacesStarThen k rest

/-- `\w+` then `k` (tries every split). -/
def wordPlusThen (k : List Char → Bool) : List Char → Bool
  | [] => false
  | c :: rest => isWordChar c && (k rest || wordPlusThen k rest)

/-- A single `\s` character then `k`. -/
def spaceCharThen (k : List Char → Bool) : List Char → Bool
  | [] => false
  | c :: rest => isJsSpace c && k rest

/-- A character class (one character among `cs`) then `k`. -/
def charInThen (cs : List Char) (k : List Char → Bool) : List Char → Bool
  | [] => false
  | c :: rest => cs.contains c && k rest

/-- Try a (prev-character aware) matcher at every start position, as an
unanchored JavaScript regex does.  `prev` is the character just before the
current position (`none` at the very start); it is what `\b` inspects. -/
def scanFrom (m : Option Char → List Char → Bool) : Option Char → List Char → Bool
  | prev, [] => m prev []
  | prev, c :: rest => m prev (c :: rest) || scanFrom m (some c) rest

/-- Unanchored test of a regex (given by its per-position matcher). -/
def testRegex (m : Option Char → List Char → Bool) (l : List Char) : Bool :=
  scanFrom m none l

/-- `\b` before a word character: start of input or a non-word char. -/
def noWordBefore (prev : Option Char) : Bool :=
  match prev with
  | none => true
  | some c => !isWordChar c

/-- `\b` after a word character: end of input or a non-word char. -/
def noWordAfter : List Char → Bool
  | [] => true
  | c :: _ => !isWordChar c

/-! ### The individual rule regexes of `getMigrationPatterns` -/

/-- `/^\s*\$:\s+/` (anchored). -/
def reactiveStatementTest (l : List Char) : Bool :=
  spacesStarThen (lit "$:" (spacesPlusThen trueK)) l

/-- `/export\s+let\s+(\w+)/`. -/
def exportLetTest : List Char → Bool :=
  testRegex (fun _ => lit "export" (spacesPlusThen (lit "let" (spacesPlusThen (wordPlusThen trueK)))))

/-- `/\son:(\w+)=/`. -/
def onDirectiveTest : List Char → Bool :=
  testRegex (fun _ => spaceCharThen (lit "on:" (wordPlusThen (lit "=" trueK))))

/-- `/<slot\s+name=/`. -/
def slotUsageTest : List Char → Bool :=
  testRegex (fun _ => lit "<slot" (spacesPlusThen (lit "name=" trueK)))

/-- `/createEventDispatcher/`. -/
def createEventDispatcherTest : List Char → Bool :=
  testRegex (fun _ => lit "createEventDispatcher" trueK)

/-- `/\b(beforeUpdate|afterUpdate)\b/`. -/
def lifecycleHooksTest : List Char → Bool :=
  testRegex (fun prev l =>
    noWordBefore prev &&
      (lit "beforeUpdate" noWordAfter l || lit "afterUpdate" noWordAfter l))

/-- `/\$(?!state|derived|effect|props|inspect)(\w+)\s*=/`. -/
def storeSubscriptionTest : List Char → Bool :=
  testRegex (fun _ l =>
    match l with
    | [] => false
    | c :: rest =>
      c == '$' &&
        !(startsWithLit "state" rest || startsWithLit "derived" rest ||
          startsWithLit "effect" rest || startsWithLit "props" rest ||
          startsWithLit "inspect" rest) &&
        wordPlusThen (spacesStarThen (lit "=" trueK)) rest)

/-- `/new\s+\w+\s*\(/`. -/
def componentInstantiationTest : List Char → Bool :=
  testRegex (fun _ => lit "new" (spacesPlusThen (wordPlusThen (spacesStarThen (lit "(" trueK)))))

/-- `/bind:this=/`. -/
def bindThisTest : List Char → Bool :=
  testRegex (fun _ => lit "bind:this=" trueK)

/-- Tail `:(\w+)\|(?!global)` of the transition-modifiers regex. -/
def transitionTail : List Char → Bool :=
  lit ":" (wordPlusThen (lit "|" (fun r => !startsWithLit "global" r)))

/-- `/\b(in|out|transition):(\w+)\|(?!global)/`. -/
def transitionModifiersTest : List Char → Bool :=
  testRegex (fun prev l =>
    noWordBefore prev &&
      (lit "in" transitionTail l || lit "out" transitionTail l ||
        lit "transition" transitionTail l))

/-- `/<svelte:component\s+this=/`. -/
def svelteComponentTest : List Char → Bool :=
  testRegex (fun _ => lit "<svelte:component" (spacesPlusThen (lit "this=" trueK)))

/-- `/\$\$(props|restProps)/`. -/
def doubleDollarPropsTest : List Char → Bool :=
  testRegex (fun _ => lit "$$" (fun r => startsWithLit "props" r || startsWithLit "restProps" r))

/-- `/\$\$slots/`. -/
def doubleDollarSlotsTest : List Char → Bool :=
  testRegex (fun _ => lit "$$slots" trueK)

/-- `/let:(\w+)/`. -/
def letDirectiveTest : List Char → Bool :=
  testRegex (fun _ => lit "let:" (wordPlusThen trueK))

/-- `/\son:\w+\|(\w+)/`. -/
def eventModifiersTest : List Char → Bool :=
  testRegex (fun _ => spaceCharThen (lit "on:" (wordPlusThen (lit "|" (wordPlusThen trueK)))))

/-- `/<svelte:fragment/`. -/
def svelteFragmentTest : List Char → Bool :=
  testRegex (fun _ => lit "<svelte:fragment" trueK)

/-- `/SvelteComponent/`. -/
def svelteComponentClassTest : List Char → Bool :=
  testRegex (fun _ => lit "SvelteComponent" trueK)

/-- `/\btick\(\)/`. -/
def tickFunctionTest : List Char → Bool :=
  testRegex (fun prev l => noWordBefore prev && lit "tick()" trueK l)

/-- `/\.\$set\(/`. -/
def componentSetMethodTest : List Char → Bool :=
  testRegex (fun _ => lit ".$set(" trueK)

/-- `/\.\$on\(/`. -/
def componentOnMethodTest : List Char → Bool :=
  testRegex (fun _ => lit ".$on(" trueK)

/-- `/\.\$destroy\(/`. -/
def componentDestroyMethodTest : List Char → Bool :=
  testRegex (fun _ => lit ".$destroy(" trueK)

/-- The quote characters of the class `['"\x60]` (apostrophe, double
quote, backtick). -/
def quoteChars : List Char := [Char.ofNat 39, Char.ofNat 34, Char.ofNat 96]

/-- Rendering of the dispatch regex: `dispatch\(` then a quote, `(\w+)`,
and a closing quote character. -/
def dispatchFunctionCallTest : List Char → Bool :=
  testRegex (fun _ => lit "dispatch(" (charInThen quoteChars (wordPlusThen (charInThen quoteChars trueK))))

/-! ### The data model of src/analyser.ts -/

/-- The `'error' | 'warning'` severity union type. -/
inductive Severity where
  | error
  | warning
deriving DecidableEq, Repr

/-- Interface `MigrationIssue` of src/analyser.ts. -/
structure MigrationIssue where
  line : Nat
  column : Option Nat := none
  message : String
  suggestion : Option String := none
  severity : Severity
  rule : String
deriving DecidableEq, Repr

/-- Interface `AnalysisResult` of src/analyser.ts. -/
structure AnalysisResult where
  file : String
  issues : List MigrationIssue
  warnings : List MigrationIssue
  aiSuggestions : Option (List String) := none
deriving DecidableEq, Repr

/-- One entry of the table returned by `getMigrationPatterns`; the regex
is embedded as the executable matcher `test`. -/
structure MigrationPattern where
  rule : String
  test : List Char → Bool
  message : String
  suggestion : String
  severity : Severity

/-- The rule table of `SvelteMigrationAnalyser.getMigrationPatterns`. -/
def getMigrationPatterns : List MigrationPattern :=
  [ { rule := "reactive-statement",
      test := reactiveStatementTest,
      message := "Reactive statement ($:) should be replaced with $derived or $effect",
      suggestion := "Use $derived for computed values or $effect for side effects",
      severity := Severity.warning },
    { rule := "export-let",
      test := exportLetTest,
      message := "export let should be replaced with $props()",
      suggestion := "Replace with: let \x7b propName \x7d = $props()",
      severity := Severity.warning },
    { rule := "on-directive",
      test := onDirectiveTest,
      message := "on: event directives should be replaced with event properties",
      suggestion := "Replace on:click with onclick",
      severity := Severity.warning },
    { rule := "slot-usage",
      test := slotUsageTest,
      message := "Named slots should be replaced with snippets",
      suggestion := "Use \x7b#snippet name()\x7d and \x7b@render name()\x7d instead",
      severity := Severity.warning },
    { rule := "create-event-dispatcher",
      test := createEventDispatcherTest,
      message := "createEventDispatcher is deprecated in Svelte 5",
      suggestion := "Use callback props instead of createEventDispatcher",
      severity := Severity.error },
    { rule := "lifecycle-hooks",
      test := lifecycleHooksTest,
      message := "beforeUpdate/afterUpdate are deprecated in Svelte 5",
      suggestion := "Use $effect.pre() and $effect() instead",
      severity := Severity.warning },
    { rule := "store-subscription",
      test := storeSubscriptionTest,
      message := "Store auto-subscriptions with $ prefix may need to be updated",
      suggestion := "Consider using $state for reactive variables",
      severity := Severity.warning },
    { rule := "component-instantiation",
      test := componentInstantiationTest,
      message := "Component instantiation with \"new\" is deprecated",
      suggestion := "Use mount() or hydrate() instead of new Component()",
      severity := Severity.error },
    { rule := "bind-this",
      test := bindThisTest,
      message := "bind:this behavior has changed in Svelte 5",
      suggestion := "bind:this no longer provides $set, $on, $destroy methods",
      severity := Severity.warning },
    { rule := "transition-modifiers",
      test := transitionModifiersTest,
      message := "Transition modifiers may need |global in Svelte 5",
      suggestion := "Transitions are local by default, add |global if needed",
      severity := Severity.warning },
    { rule := "svelte-component",
      test := svelteComponentTest,
      message := "svelte:component is no longer necessary in Svelte 5",
      suggestion := "You can use dynamic components directly: <Thing />",
      severity := Severity.warning },
    { rule := "double-dollar-props",
      test := doubleDollarPropsTest,
      message := "$$props and $$restProps are deprecated",
      suggestion := "Use destructuring with rest in $props(): let \x7b foo, ...rest \x7d = $props()",
      severity := Severity.error },
    { rule := "double-dollar-slots",
      test := doubleDollarSlotsTest,
      message := "$$slots is deprecated in Svelte 5",
      suggestion := "Use snippet parameters instead of $$slots",
      severity := Severity.error },
    { rule := "let-directive",
      test := letDirectiveTest,
      message := "let: directive in slots should be replaced with snippet parameters",
      suggestion := "Use \x7b#snippet name(param)\x7d instead of let:param",
      severity := Severity.warning },
    { rule := "event-modifiers",
      test := eventModifiersTest,
      message := "Event modifiers are deprecated in Svelte 5",
      suggestion := "Handle event.preventDefault(), event.stopPropagation() etc. in the handler",
      severity := Severity.warning },
    { rule := "svelte-fragment",
      test := svelteFragmentTest,
      message := "svelte:fragment should be replaced with snippets",
      suggestion := "Use \x7b#snippet\x7d blocks instead of svelte:fragment",
      severity := Severity.warning },
    { rule := "svelte-component-class",
      test := svelteComponentClassTest,
      message := "SvelteComponent class is deprecated in Svelte 5",
      suggestion := "Use Component type instead for typing",
      severity := Severity.error },
    { rule := "tick-function",
      test := tickFunctionTest,
      message := "tick() is now async in Svelte 5",
      suggestion := "Use await tick() or tick().then()",
      severity := Severity.warning },
    { rule := "component-set-method",
      test := componentSetMethodTest,
      message := "Component.$set() method is deprecated",
      suggestion := "Pass props directly to components instead",
      severity := Severity.error },
    { rule := "component-on-method",
      test := componentOnMethodTest,
      message := "Component.$on() method is deprecated",
      suggestion := "Use callback props instead of $on",
      severity := Severity.error },
    { rule := "component-destroy-method",
      test := componentDestroyMethodTest,
      message := "Component.$destroy() method is deprecated",
      suggestion := "Use unmount() function instead",
      severity := Severity.error },
    { rule := "dispatch-function-call",
      test := dispatchFunctionCallTest,
      message := "Event dispatching should use callback props",
      suggestion := "Replace dispatch with callback props",
      severity := Severity.warning } ]

/-! ### The scan of `SvelteMigrationAnalyser.analyzeFile` -/

/-- JavaScript `String.prototype.split` with a one-character separator:
always returns at least one (possibly empty) field, keeps a trailing
empty field. -/
def jsSplit (sep : Char) : List Char → List (List Char)
  | [] => [[]]
  | c :: rest =>
    match jsSplit sep rest with
    | [] => [[]]
    | g :: gs => if c == sep then [] :: g :: gs else (c :: g) :: gs

/-- The `MigrationIssue` pushed for a rule match on line `lineNumber`
(analyser.ts lines 103-109; `column` is never set, `suggestion` always). -/
def mkIssueOf (p : MigrationPattern) (lineNumber : Nat) : MigrationIssue :=
  { line := lineNumber
    message := p.message
    suggestion := some p.suggestion
    severity := p.severity
    rule := p.rule }

/-- All matches of one line, in rule-table order.  The empty line is
skipped (`if (!line) continue`). -/
def lineFindings (ps : List MigrationPattern) (lineNumber : Nat) (line : List Char) : List MigrationIssue :=
  if line = [] then []
  else (ps.filter (fun p => p.test line)).map (fun p => mkIssueOf p lineNumber)

/-- The nested loop of `analyzeFile` (lines 94-118): visits lines in
order, pushes each match into the `issues` or `warnings` array according
to the rule's declared severity.  `i` is the zero-based index of the next
line ( `lineNumber = i + 1` ). -/
def scanLines (ps : List MigrationPattern) : Nat → List (List Char) → List MigrationIssue × List MigrationIssue
  | _, [] => ([], [])
  | i, line :: rest =>
    let here := lineFindings ps (i + 1) line
    let r := scanLines ps (i + 1) rest
    (here.filter (fun f => f.severity == Severity.error) ++ r.1,
      here.filter (fun f => f.severity == Severity.warning) ++ r.2)

/-- The `AnthropicService.analyzeSvelteFile` collaborator: arguments
`(filename, content, issues, warnings)`; `Except.error` models a thrown
exception. -/
def AnthropicSvc : Type :=
  String → String → List MigrationIssue → List MigrationIssue → Except String (List String)

/-- `SvelteMigrationAnalyser.analyzeFile` (lines 83-143).  The optional
constructor argument `anthropicService` is passed explicitly.  The AI call
is attempted only when some finding exists; a failure is caught and leaves
`aiSuggestions` unset. -/
def analyzeFile (anthropicService : Option AnthropicSvc) (filename content : String) : AnalysisResult :=
  let lines := jsSplit '\n' content.toList
  let r := scanLines getMigrationPatterns 0 lines
  let aiSuggestions : Option (List String) :=
    match anthropicService with
    | some svc =>
      if r.1.length > 0 || r.2.length > 0 then
        match svc filename content r.1 r.2 with
        | Except.ok s => some s
        | Except.error _ => none
      else none
    | none => none
  { file := filename
    issues := r.1
    warnings := r.2
    aiSuggestions := aiSuggestions }

/-- The synthetic result `analyzeFiles` pushes when a read fails
(analyser.ts lines 64-76): one error finding, rule `file-read-error`,
line 1, message embedding the failure reason, empty warnings, no AI
suggestions. -/
def fileReadErrorResult (file e : String) : AnalysisResult :=
  { file := file
    issues := [{ line := 1
                 message := "Failed to read file: " ++ e
                 severity := Severity.error
                 rule := "file-read-error" }]
    warnings := [] }

/-- `SvelteMigrationAnalyser.analyzeFiles` (lines 55-81).  `readFile` is
the `fs.readFile` collaborator; a failed read is caught and replaced by a
synthetic single-error result. -/
def analyzeFiles (anthropicService : Option AnthropicSvc)
    (readFile : String → Except String String) (files : List String) : List AnalysisResult :=
  files.map (fun file =>
    match readFile file with
    | Except.ok content => analyzeFile anthropicService file content
    | Except.error e => fileReadErrorResult file e)

/-! ### `generate_summary` of src/index.ts -/

/-- The per-issue bullet lines pushed inside a file's `<details>` block. -/
def issueLines (issues : List MigrationIssue) : String :=
  issues.foldl
    (fun acc issue =>
      acc ++ "- **Line " ++ toString issue.line ++ ":** " ++ issue.message ++ "\n" ++
        match issue.suggestion with
        | some s => "  - 💡 **Suggestion:** " ++ s ++ "\n"
        | none => "")
    ""

/-- The `<details>` block of one file inside the Issues section (skipped
when the file has no issues). -/
def fileIssuesSection (result : AnalysisResult) : String :=
  if result.issues.length > 0 then
    "<details>\n" ++ "<summary>📄 <code>" ++ result.file ++ "</code> - " ++
      toString result.issues.length ++ " " ++
      (if result.issues.length = 1 then "issue" else "issues") ++ "</summary>\n\n" ++
      issueLines result.issues ++ "\n</details>\n\n"
  else ""

/-- The `<details>` block of one file inside the Warnings section. -/
def fileWarningsSection (result : AnalysisResult) : String :=
  if result.warnings.length > 0 then
    "<details>\n" ++ "<summary>📄 <code>" ++ result.file ++ "</code> - " ++
      toString result.warnings.length ++ " " ++
      (if result.warnings.length = 1 then "warning" else "warnings") ++ "</summary>\n\n" ++
      issueLines result.warnings ++ "\n</details>\n\n"
  else ""

/-- `generate_summary` of src/index.ts: the Markdown report.  With both
totals zero it returns early after the positive framing; otherwise it
emits the summary block, the Issues and Warnings sections and the closing
resource links. -/
def generate_summary (results : List AnalysisResult) (total_issues total_warnings : Nat) : String :=
  let summary := "# 🔄 Svelte Migration Analysis Results\n\n"
  if total_issues == 0 && total_warnings == 0 then
    summary ++ "✅ **Great news!** No Svelte 4 patterns detected in your codebase.\n\n" ++
      "Your project appears to be ready for Svelte 5!\n"
  else
    let summary := summary ++ "## 📊 Summary\n\n" ++
      "- **Files analysed:** " ++ toString results.length ++ "\n" ++
      "- **Issues found:** " ++ toString total_issues ++ "\n" ++
      "- **Warnings found:** " ++ toString total_warnings ++ "\n\n"
    let summary :=
      if total_issues > 0 then
        summary ++ "## ❌ Issues (" ++ toString total_issues ++ ")\n\n" ++
          "These are breaking changes that must be addressed for Svelte 5:\n\n" ++
          results.foldl (fun acc r => acc ++ fileIssuesSection r) ""
      else summary
    let summary :=
      if total_warnings > 0 then
        summary ++ "## ⚠️ Warnings (" ++ toString total_warnings ++ ")\n\n" ++
          "These patterns will still work but are deprecated in Svelte 5:\n\n" ++
          results.foldl (fun acc r => acc ++ fileWarningsSection r) ""
      else summary
    summary ++ "## 📚 Migration Resources\n\n" ++
      "- [Svelte 5 Migration Guide](https://svelte.dev/docs/svelte/v5-migration-guide)\n" ++
      "- [Automatic Migration Tool](https://svelte.dev/docs/svelte/v5-migration-guide#migration-script): `npx sv migrate svelte-5`\n" ++
      "- [Svelte 5 Documentation](https://svelte.dev/docs/svelte)\n\n"

/-- The exact string `generate_summary` returns when both totals are 0. -/
def noIssuesSummary : String :=
  "# 🔄 Svelte Migration Analysis Results\n\n" ++
    "✅ **Great news!** No Svelte 4 patterns detected in your codebase.\n\n" ++
    "Your project appears to be ready for Svelte 5!\n"

/-- Substring test (used to state that a report contains no section
headers). -/
def containsSub (pat s : String) : Bool :=
  testRegex (fun _ l => startsWithLit pat l) s.toList

/-! ### `AnthropicService.parseClaudeSuggestions` (code-quality-plan.md) -/

/-- JavaScript `String.prototype.trim` on a list of characters. -/
def trimChars (l : List Char) : List Char :=
  ((l.dropWhile isJsSpace).reverse.dropWhile isJsSpace).reverse

/-- `\d+\.` anchored after the first digit: digits then a dot. -/
def digitsThenDot : List Char → Bool
  | [] => false
  | c :: rest => c == '.' || (c.isDigit && digitsThenDot rest)

/-- `/^\d+\./` on an (already trimmed) line. -/
def startsNumberDot : List Char → Bool
  | [] => false
  | c :: rest => c.isDigit && digitsThenDot rest

/-- Marker detection: `/^\d+\./.test(t) || /^[-*]/.test(t)` for the
trimmed line `t`. -/
def isMarkerLine (t : List Char) : Bool :=
  startsNumberDot t ||
    (match t with
     | c :: _ => c == '-' || c == '*'
     | [] => false)

/-- The accumulation loop of `parseClaudeSuggestions`: `current` is the
`currentSuggestion` string (empty at the start); a marker line pushes the
pending suggestion and restarts from the trimmed line; any other line with
non-empty trim is appended after a single space. -/
def parseLoop : List (List Char) → List Char → List (List Char)
  | [], current => if current.isEmpty then [] else [trimChars current]
  | line :: rest, current =>
    let t := trimChars line
    if isMarkerLine t then
      (if current.isEmpty then [] else [trimChars current]) ++ parseLoop rest t
    else if !t.isEmpty then
      parseLoop rest (current ++ ' ' :: t)
    else
      parseLoop rest current

/-- `AnthropicService.parseClaudeSuggestions`: split the response on
newlines, keep lines with non-empty trim, group them into suggestions and
drop every suggestion of length at most 10. -/
def parseClaudeSuggestions (response : String) : List String :=
  let lines := (jsSplit '\n' response.toList).filter (fun line => !(trimChars line).isEmpty)
  let suggestions := parseLoop lines []
  (suggestions.filter (fun s => s.length > 10)).map (fun cs => String.mk cs)

/-- Left fold appending each further line after a single space: the
joined text of one suggestion unit. -/
def joinWithSpace (first : List Char) (rest : List (List Char)) : List Char :=
  rest.foldl (fun acc t => acc ++ ' ' :: t) first

/-- Modelled from the spec's description of the parser (for comparison
with the embedded source): the trimmed non-empty lines are grouped into
units, a new unit starting at every line whose trimmed form begins with a
numbered-list or bullet marker (the text before the first marker forms
the first unit); each unit is its lines joined with single spaces. -/
def specUnitsGo : List (List Char) → List (List Char)
  | [] => []
  | t :: rest =>
    joinWithSpace t (rest.takeWhile (fun l => !isMarkerLine l)) ::
      specUnitsGo (rest.dropWhile (fun l => !isMarkerLine l))
termination_by ts => ts.length
decreasing_by
  simp only [List.length_cons]
  exact Nat.lt_succ_of_le ((List.dropWhile_sublist _).length_le)

/-- Modelled from the spec: the whole parser as the spec describes it —
trimmed non-empty lines, marker-delimited units, units of trimmed length
at most 10 excluded. -/
def specSuggestions (response : String) : List String :=
  let ts := ((jsSplit '\n' response.toList).map trimChars).filter (fun t => !t.isEmpty)
  ((specUnitsGo ts).filter (fun s => s.length > 10)).map (fun cs => String.mk cs)

/-! ### Auxiliary notions used by the theorems -/

/-- Position of a rule name in the rule table (first occurrence). -/
def idxOfRule : List MigrationPattern → String → Nat
  | [], _ => 0
  | p :: ps, r => if p.rule == r then 0 else idxOfRule ps r + 1

/-- Position of a rule name in `getMigrationPatterns`. -/
def ruleIndex (r : String) : Nat :=
  idxOfRule getMigrationPatterns r

/-- Output order of findings inside one severity partition: ascending
line number, ties broken by rule-table position. -/
def findingLE (a b : MigrationIssue) : Prop :=
  a.line < b.line ∨ (a.line = b.line ∧ ruleIndex a.rule < ruleIndex b.rule)

instance : DecidableRel findingLE := fun a b => by
  unfold findingLE
  exact inferInstance

/-- Total number of (line, rule) matches of a scan — each non-empty line
contributes one per rule whose pattern matches it. -/
def totalMatches (ps : List MigrationPattern) (ls : List (List Char)) : Nat :=
  (ls.map (fun l => if l = [] then 0 else (ps.filter (fun p => p.test l)).length)).sum

/-! ### Concrete collaborators used to witness the theorems -/

/-- A file system in which exactly `bad.svelte` fails to read. -/
def c1Fs : String → Except String String :=
  fun q => if q == "bad.svelte" then Except.error "ENOENT" else Except.ok "export let title;"

/-- The same file system with the failing path repaired. -/
def c1Fs' : String → Except String String :=
  fun q => if q == "bad.svelte" then Except.ok "" else c1Fs q

/-- An augmentation service that always throws. -/
def c5Svc : AnthropicSvc :=
  fun _ _ _ _ => Except.error "network down"

/-! ### Helper lemmas about the line scan -/

lemma mem_lineFindings {ps : List MigrationPattern} {n : Nat} {line : List Char}
    {f : MigrationIssue} :
    f ∈ lineFindings ps n line ↔
      line ≠ [] ∧ ∃ p ∈ ps, p.test line = true ∧ f = mkIssueOf p n := by
  by_cases h : line = []
  · simp [lineFindings, h]
  · simp only [lineFindings, h, if_neg, List.mem_map, List.mem_filter, ne_eq,
      not_false_eq_true, true_and]
    constructor
    · rintro ⟨p, ⟨hp, ht⟩, rfl⟩
      exact ⟨p, hp, ht, rfl⟩
    · rintro ⟨p, hp, ht, rfl⟩
      exact ⟨p, ⟨hp, ht⟩, rfl⟩

lemma scanLines_cons (ps : List MigrationPattern) (i : Nat) (line : List Char)
    (rest : List (List Char)) :
    scanLines ps i (line :: rest) =
      ((lineFindings ps (i + 1) line).filter (fun f => f.severity == Severity.error) ++
          (scanLines ps (i + 1) rest).1,
        (lineFindings ps (i + 1) line).filter (fun f => f.severity == Severity.warning) ++
          (scanLines ps (i + 1) rest).2) := by
  simp [scanLines]

lemma mem_scanLines_fst {ps : List MigrationPattern} {f : MigrationIssue} :
    ∀ {i : Nat} {ls : List (List Char)}, f ∈ (scanLines ps i ls).1 →
      ∃ p ∈ ps, ∃ n, f = mkIssueOf p n ∧ p.severity = Severity.error := by
  intro i ls
  induction ls generalizing i with
  | nil => simp [scanLines]
  | cons line rest ih =>
    rw [scanLines_cons]
    intro hf
    rcases List.mem_append.mp hf with hl | hr
    · rcases List.mem_filter.mp hl with ⟨hmem, hsev⟩
      rcases (mem_lineFindings.mp hmem) with ⟨-, p, hp, -, rfl⟩
      refine ⟨p, hp, i + 1, rfl, ?_⟩
      simpa [mkIssueOf] using hsev
    · exact ih hr

lemma mem_scanLines_snd {ps : List MigrationPattern} {f : MigrationIssue} :
    ∀ {i : Nat} {ls : List (List Char)}, f ∈ (scanLines ps i ls).2 →
      ∃ p ∈ ps, ∃ n, f = mkIssueOf p n ∧ p.severity = Severity.warning := by
  intro i ls
  induction ls generalizing i with
  | nil => simp [scanLines]
  | cons line rest ih =>
    rw [scanLines_cons]
    intro hf
    rcases List.mem_append.mp hf with hl | hr
    · rcases List.mem_filter.mp hl with ⟨hmem, hsev⟩
      rcases (mem_lineFindings.mp hmem) with ⟨-, p, hp, -, rfl⟩
      refine ⟨p, hp, i + 1, rfl, ?_⟩
      simpa [mkIssueOf] using hsev
    · exact ih hr

lemma scanLines_complete {ps : List MigrationPattern} {p : MigrationPattern}
    (hp : p ∈ ps) :
    ∀ {ls : List (List Char)} {i j : Nat} (hj : j < ls.length),
      ls.get ⟨j, hj⟩ ≠ [] → p.test (ls.get ⟨j, hj⟩) = true →
      (p.severity = Severity.error → mkIssueOf p (i + j + 1) ∈ (scanLines ps i ls).1) ∧
      (p.severity = Severity.warning → mkIssueOf p (i + j + 1) ∈ (scanLines ps i ls).2) := by
  intro ls
  induction ls with
  | nil => intro i j hj; exact absurd hj (by simp)
  | cons line rest ih =>
    intro i j hj hne ht
    cases j with
    | zero =>
      rw [scanLines_cons]
      have hmem : mkIssueOf p (i + 1) ∈ lineFindings ps (i + 1) line :=
        mem_lineFindings.mpr ⟨hne, p, hp, ht, rfl⟩
      constructor
      · intro hsev
        refine List.mem_append_left _ (List.mem_filter.mpr ⟨hmem, ?_⟩)
        simp [mkIssueOf, hsev]
      · intro hsev
        refine List.mem_append_left _ (List.mem_filter.mpr ⟨hmem, ?_⟩)
        simp [mkIssueOf, hsev]
    | succ j' =>
      have hj' : j' < rest.length := Nat.lt_of_succ_lt_succ hj
      have harith : i + 1 + j' + 1 = i + (j' + 1) + 1 := by omega
      have := @ih (i + 1) j' hj' (by simpa using hne) (by simpa using ht)
      rw [scanLines_cons]
      constructor
      · intro hsev
        refine List.mem_append_right _ ?_
        have h1 := this.1 hsev
        rwa [harith] at h1
      · intro hsev
        refine List.mem_append_right _ ?_
        have h1 := this.2 hsev
        rwa [harith] at h1

lemma lineFindings_line_eq {ps : List MigrationPattern} {n : Nat} {line : List Char}
    {f : MigrationIssue} (hf : f ∈ lineFindings ps n line) : f.line = n := by
  rcases mem_lineFindings.mp hf with ⟨-, p, -, -, rfl⟩
  rfl

lemma lineFindings_sorted (hps : List.Pairwise (fun p q => ruleIndex p.rule < ruleIndex q.rule)
      getMigrationPatterns) (n : Nat) (line : List Char) :
    List.Pairwise findingLE (lineFindings getMigrationPatterns n line) := by
  by_cases h : line = []
  · simp [lineFindings, h]
  · rw [lineFindings, if_neg h, List.pairwise_map]
    refine (hps.filter _).imp ?_
    intro p q hpq
    exact Or.inr ⟨rfl, hpq⟩

lemma scanLines_sorted
    (hps : List.Pairwise (fun p q => ruleIndex p.rule < ruleIndex q.rule) getMigrationPatterns) :
    ∀ (i : Nat) (ls : List (List Char)),
      (List.Pairwise findingLE (scanLines getMigrationPatterns i ls).1 ∧
        ∀ f ∈ (scanLines getMigrationPatterns i ls).1, i < f.line) ∧
      (List.Pairwise findingLE (scanLines getMigrationPatterns i ls).2 ∧
        ∀ f ∈ (scanLines getMigrationPatterns i ls).2, i < f.line) := by
  intro i ls
  induction ls generalizing i with
  | nil => simp [scanLines]
  | cons line rest ih =>
    rw [scanLines_cons]
    have hblock := lineFindings_sorted hps (i + 1) line
    have hrest := ih (i + 1)
    constructor
    · constructor
      · refine List.pairwise_append.mpr ⟨hblock.filter _, hrest.1.1, ?_⟩
        intro a ha b hb
        have ha' : a.line = i + 1 := lineFindings_line_eq (List.mem_filter.mp ha).1
        have hb' : i + 1 < b.line := hrest.1.2 b hb
        exact Or.inl (ha' ▸ hb')
      · intro f hf
        rcases List.mem_append.mp hf with hl | hr
        · have := lineFindings_line_eq (List.mem_filter.mp hl).1
          omega
        · have := hrest.1.2 f hr
          omega
    · constructor
      · refine List.pairwise_append.mpr ⟨hblock.filter _, hrest.2.1, ?_⟩
        intro a ha b hb
        have ha' : a.line = i + 1 := lineFindings_line_eq (List.mem_filter.mp ha).1
        have hb' : i + 1 < b.line := hrest.2.2 b hb
        exact Or.inl (ha' ▸ hb')
      · intro f hf
        rcases List.mem_append.mp hf with hl | hr
        · have := lineFindings_line_eq (List.mem_filter.mp hl).1
          omega
        · have := hrest.2.2 f hr
          omega

lemma length_filter_sev (l : List MigrationIssue) :
    (l.filter (fun f => f.severity == Severity.error)).length +
      (l.filter (fun f => f.severity == Severity.warning)).length = l.length := by
  induction l with
  | nil => simp
  | cons f rest ih =>
    cases hs : f.severity <;> simp [List.filter_cons, hs] <;> omega

lemma lineFindings_length (ps : List MigrationPattern) (n : Nat) (line : List Char) :
    (lineFindings ps n line).length =
      if line = [] then 0 else (ps.filter (fun p => p.test line)).length := by
  by_cases h : line = [] <;> simp [lineFindings, h]

lemma scanLines_count (ps : List MigrationPattern) :
    ∀ (i : Nat) (ls : List (List Char)),
      (scanLines ps i ls).1.length + (scanLines ps i ls).2.length = totalMatches ps ls := by
  intro i ls
  induction ls generalizing i with
  | nil => simp [scanLines, totalMatches]
  | cons line rest ih =>
    rw [scanLines_cons]
    have hblock := length_filter_sev (lineFindings ps (i + 1) line)
    have hlen := lineFindings_length ps (i + 1) line
    have hrest := ih (i + 1)
    simp only [List.length_append, totalMatches, List.map_cons, List.sum_cons]
    simp only [totalMatches] at hrest
    omega

lemma scanLines_no_match {ps : List MigrationPattern} :
    ∀ {ls : List (List Char)}, (∀ line ∈ ls, ∀ p ∈ ps, p.test line = false) →
      ∀ (i : Nat), scanLines ps i ls = ([], []) := by
  intro ls
  induction ls with
  | nil => intro _ i; simp [scanLines]
  | cons line rest ih =>
    intro h i
    have hline : lineFindings ps (i + 1) line = [] := by
      by_cases hl : line = []
      · simp [lineFindings, hl]
      · rw [lineFindings, if_neg hl]
        have : ps.filter (fun p => p.test line) = [] := by
          rw [List.filter_eq_nil_iff]
          intro p hp
          simp [h line (by simp) p hp]
        rw [this, List.map_nil]
    rw [scanLines_cons, hline, ih (fun l hl p hp => h l (by simp [hl]) p hp) (i + 1)]
    simp

lemma scanLines_trailing_empty (ps : List MigrationPattern) :
    ∀ (ls : List (List Char)) (i : Nat),
      scanLines ps i (ls ++ [[]]) = scanLines ps i ls := by
  intro ls
  induction ls with
  | nil => intro i; simp [scanLines, lineFindings]
  | cons line rest ih =>
    intro i
    rw [List.cons_append, scanLines_cons, scanLines_cons, ih (i + 1)]

/-! ### Helper lemmas about `jsSplit` -/

lemma jsSplit_ne_nil (sep : Char) (l : List Char) : jsSplit sep l ≠ [] := by
  induction l with
  | nil => simp [jsSplit]
  | cons c rest ih =>
    unfold jsSplit
    rcases h : jsSplit sep rest with _ | ⟨g, gs⟩
    · simp
    · dsimp only
      split <;> simp

lemma jsSplit_append_sep (sep : Char) (l : List Char) :
    jsSplit sep (l ++ [sep]) = jsSplit sep l ++ [[]] := by
  induction l with
  | nil => simp [jsSplit]
  | cons c rest ih =>
    rcases h : jsSplit sep rest with _ | ⟨g, gs⟩
    · exact absurd h (jsSplit_ne_nil sep rest)
    · rw [List.cons_append]
      unfold jsSplit
      rw [ih, h]
      dsimp only
      by_cases hc : (c == sep) = true <;> simp [hc]

lemma toList_append (s t : String) : (s ++ t).toList = s.toList ++ t.toList := by
  simp [String.toList]

lemma analyzeFile_issues_def (svc : Option AnthropicSvc) (filename content : String) :
    (analyzeFile svc filename content).issues =
      (scanLines getMigrationPatterns 0 (jsSplit '\n' content.toList)).1 := rfl

lemma analyzeFile_warnings_def (svc : Option AnthropicSvc) (filename content : String) :
    (analyzeFile svc filename content).warnings =
      (scanLines getMigrationPatterns 0 (jsSplit '\n' content.toList)).2 := rfl

/-! ### The claim theorems -/

/-- C9: appending a single trailing newline to the content never changes
the scan result — with no augmentation service configured,
`analyzeFile p (c ++ "\n")` and `analyzeFile p c` are structurally
identical, because the split only gains a final empty line, which the
scan skips and which no rule can match. -/
theorem analyzeFile_trailing_newline (filename content : String) :
    analyzeFile none filename (content ++ "\n") = analyzeFile none filename content := by
  unfold analyzeFile
  rw [toList_append, show "\n".toList = ['\n'] from rfl, jsSplit_append_sep]
  dsimp only
  rw [scanLines_trailing_empty]

/-- C3: severity partition invariant — in every result of the scan, every
finding of the `issues` partition has severity `error` and stems from a
rule declared `error`, every finding of the `warnings` partition has
severity `warning` and stems from a rule declared `warning`, and no
finding lies in both partitions. -/
theorem analyzeFile_severity_partition (svc : Option AnthropicSvc) (filename content : String) :
    (∀ f ∈ (analyzeFile svc filename content).issues,
        f.severity = Severity.error ∧
          ∃ p ∈ getMigrationPatterns, p.rule = f.rule ∧ p.severity = Severity.error) ∧
    (∀ f ∈ (analyzeFile svc filename content).warnings,
        f.severity = Severity.warning ∧
          ∃ p ∈ getMigrationPatterns, p.rule = f.rule ∧ p.severity = Severity.warning) ∧
    (∀ f ∈ (analyzeFile svc filename content).issues,
        f ∉ (analyzeFile svc filename content).warnings) := by
  rw [analyzeFile_issues_def, analyzeFile_warnings_def]
  refine ⟨?_, ?_, ?_⟩
  · intro f hf
    rcases mem_scanLines_fst hf with ⟨p, hp, n, rfl, hsev⟩
    exact ⟨hsev, p, hp, rfl, hsev⟩
  · intro f hf
    rcases mem_scanLines_snd hf with ⟨p, hp, n, rfl, hsev⟩
    exact ⟨hsev, p, hp, rfl, hsev⟩
  · intro f hf hw
    rcases mem_scanLines_fst hf with ⟨p, hp, n, rfl, hsev⟩
    rcases mem_scanLines_snd hw with ⟨q, hq, m, heq, hsev'⟩
    have : p.severity = q.severity := congrArg MigrationIssue.severity heq
    rw [hsev, hsev'] at this
    exact Severity.noConfusion this

/-- Witness for C3 at a concrete input with a non-empty issues list. -/
theorem analyzeFile_severity_partition_witness :
    (analyzeFile none "w3.svelte" "createEventDispatcher()").issues ≠ [] ∧
    (∀ f ∈ (analyzeFile none "w3.svelte" "createEventDispatcher()").issues,
        f.severity = Severity.error ∧
          ∃ p ∈ getMigrationPatterns, p.rule = f.rule ∧ p.severity = Severity.error) :=
  ⟨by decide, (analyzeFile_severity_partition none "w3.svelte" "createEventDispatcher()").1⟩

/-- C7: scanning is deterministic and idempotent — two invocations with
identical arguments yield structurally identical, identically-ordered
results; the scan is embedded as a pure function (no side effects, no
I/O). -/
theorem analyzeFile_deterministic (svc : Option AnthropicSvc) (fn c fn' c' : String)
    (hfn : fn = fn') (hc : c = c') :
    analyzeFile svc fn c = analyzeFile svc fn' c' := by
  rw [hfn, hc]

/-- Witness for C7 at a concrete input. -/
theorem analyzeFile_deterministic_witness :
    ("a.svelte" = "a.svelte" ∧ "await tick()" = "await tick()") ∧
      analyzeFile none "a.svelte" "await tick()" = analyzeFile none "a.svelte" "await tick()" :=
  ⟨⟨rfl, rfl⟩,
    analyzeFile_deterministic none "a.svelte" "await tick()" "a.svelte" "await tick()" rfl rfl⟩

/-- C2: every rule of the table whose pattern matches a line contributes
its own finding (no deduplication, no short-circuit: the partition sizes
add up to the total number of (line, rule) matches), and within each
severity partition findings are ordered by ascending line number, ties
broken by rule-table position. -/
theorem analyzeFile_match_completeness_order (svc : Option AnthropicSvc)
    (filename content : String) :
    (∀ p ∈ getMigrationPatterns, ∀ (j : Nat) (hj : j < (jsSplit '\n' content.toList).length),
        (jsSplit '\n' content.toList).get ⟨j, hj⟩ ≠ [] →
        p.test ((jsSplit '\n' content.toList).get ⟨j, hj⟩) = true →
        (p.severity = Severity.error →
          mkIssueOf p (j + 1) ∈ (analyzeFile svc filename content).issues) ∧
        (p.severity = Severity.warning →
          mkIssueOf p (j + 1) ∈ (analyzeFile svc filename content).warnings)) ∧
    (analyzeFile svc filename content).issues.length +
        (analyzeFile svc filename content).warnings.length =
      totalMatches getMigrationPatterns (jsSplit '\n' content.toList) ∧
    List.Pairwise findingLE (analyzeFile svc filename content).issues ∧
    List.Pairwise findingLE (analyzeFile svc filename content).warnings := by
  rw [analyzeFile_issues_def, analyzeFile_warnings_def]
  have hps : List.Pairwise (fun p q => ruleIndex p.rule < ruleIndex q.rule)
      getMigrationPatterns := by decide
  refine ⟨?_, scanLines_count _ _ _, (scanLines_sorted hps 0 _).1.1,
    (scanLines_sorted hps 0 _).2.1⟩
  intro p hp j hj hne ht
  have h := scanLines_complete hp (i := 0) hj hne ht
  simpa using h

/-- Witness for C2: on a line matching two distinct rules, the
component-set-method rule (table position 18) contributes its finding. -/
theorem analyzeFile_match_completeness_order_witness :
    ((getMigrationPatterns.get ⟨18, by decide⟩).test
        ((jsSplit '\n' ".$set(a) .$on(b)".toList).get ⟨0, by decide⟩) = true ∧
      (getMigrationPatterns.get ⟨18, by decide⟩).severity = Severity.error) ∧
    mkIssueOf (getMigrationPatterns.get ⟨18, by decide⟩) 1 ∈
      (analyzeFile none "w2.svelte" ".$set(a) .$on(b)").issues := by
  refine ⟨⟨by decide, by decide⟩, ?_⟩
  have h := (analyzeFile_match_completeness_order none "w2.svelte" ".$set(a) .$on(b)").1
    (getMigrationPatterns.get ⟨18, by decide⟩) (List.get_mem _ _ _)
    0 (by decide) (by decide) (by decide)
  exact h.1 (by decide)

/-- C4: the rune-exclusion example — scanning the two-line file
`$: doubled = count * 2;` / `let x = $state(0);` yields a warning finding
of the reactive-statement rule on line 1 and no finding of the
store-subscription rule on line 2 (because `$state` is excluded by the
negative lookahead). -/
theorem analyzeFile_rune_exclusion_example :
    (∃ f ∈ (analyzeFile none "example.svelte"
        "$: doubled = count * 2;\nlet x = $state(0);").warnings,
      f.line = 1 ∧ f.rule = "reactive-statement" ∧ f.severity = Severity.warning) ∧
    (∀ f ∈ (analyzeFile none "example.svelte"
        "$: doubled = count * 2;\nlet x = $state(0);").issues,
      ¬(f.line = 2 ∧ f.rule = "store-subscription")) ∧
    (∀ f ∈ (analyzeFile none "example.svelte"
        "$: doubled = count * 2;\nlet x = $state(0);").warnings,
      ¬(f.line = 2 ∧ f.rule = "store-subscription")) := by
  decide

/-- C5: augmentation-failure isolation — when the pattern scan succeeds
but the suggestion service throws, the file's result still carries the
scan's error and warning findings unchanged and has no `aiSuggestions`;
the failure does not propagate out of `analyzeFile`. -/
theorem analyzeFile_augmentation_failure_isolation (svc : AnthropicSvc)
    (filename content e : String)
    (hfail : svc filename content (analyzeFile none filename content).issues
        (analyzeFile none filename content).warnings = Except.error e) :
    analyzeFile (some svc) filename content =
      { file := filename
        issues := (analyzeFile none filename content).issues
        warnings := (analyzeFile none filename content).warnings
        aiSuggestions := none } := by
  have hfail' : svc filename content
      (scanLines getMigrationPatterns 0 (jsSplit '\n' content.toList)).1
      (scanLines getMigrationPatterns 0 (jsSplit '\n' content.toList)).2 = Except.error e := hfail
  show analyzeFile (some svc) filename content =
    { file := filename
      issues := (scanLines getMigrationPatterns 0 (jsSplit '\n' content.toList)).1
      warnings := (scanLines getMigrationPatterns 0 (jsSplit '\n' content.toList)).2
      aiSuggestions := none }
  unfold analyzeFile
  dsimp only
  rw [hfail']
  split <;> rfl

/-- Witness for C5 at a concrete input with a non-empty findings list. -/
theorem analyzeFile_augmentation_failure_isolation_witness :
    (c5Svc "a.svelte" "await tick()" (analyzeFile none "a.svelte" "await tick()").issues
        (analyzeFile none "a.svelte" "await tick()").warnings = Except.error "network down" ∧
      (analyzeFile none "a.svelte" "await tick()").warnings ≠ []) ∧
    analyzeFile (some c5Svc) "a.svelte" "await tick()" =
      { file := "a.svelte"
        issues := (analyzeFile none "a.svelte" "await tick()").issues
        warnings := (analyzeFile none "a.svelte" "await tick()").warnings
        aiSuggestions := none } :=
  ⟨⟨rfl, by decide⟩,
    analyzeFile_augmentation_failure_isolation c5Svc "a.svelte" "await tick()" "network down" rfl⟩

lemma analyzeFiles_getElem? (svc : Option AnthropicSvc) (fs : String → Except String String)
    (files : List String) (j : Nat) (hj : j < files.length) :
    (analyzeFiles svc fs files)[j]? =
      some (match fs (files.get ⟨j, hj⟩) with
        | Except.ok content => analyzeFile svc (files.get ⟨j, hj⟩) content
        | Except.error e => fileReadErrorResult (files.get ⟨j, hj⟩) e) := by
  unfold analyzeFiles
  rw [List.getElem?_map, List.get_eq_getElem, List.getElem?_eq_getElem hj]
  rfl

/-- C1: batch isolation — `analyzeFiles` returns one result per input
path, in input order; a path whose read fails yields exactly the
synthetic `file-read-error` result (one error finding, line 1, message
embedding the reason, empty warnings), and every other path's result is
the same as with a file system in which that path does not fail. -/
theorem analyzeFiles_batch_isolation (svc : Option AnthropicSvc)
    (fs fs' : String → Except String String) (files : List String) (p e : String)
    (hfail : fs p = Except.error e)
    (hagree : ∀ q, q ≠ p → fs' q = fs q) :
    (analyzeFiles svc fs files).length = files.length ∧
    (analyzeFiles svc fs files).map (fun r => r.file) = files ∧
    (∀ (j : Nat) (hj : j < files.length), files.get ⟨j, hj⟩ = p →
        (analyzeFiles svc fs files)[j]? = some (fileReadErrorResult p e)) ∧
    (∀ (j : Nat) (hj : j < files.length), files.get ⟨j, hj⟩ ≠ p →
        (analyzeFiles svc fs files)[j]? = (analyzeFiles svc fs' files)[j]?) := by
  refine ⟨by simp [analyzeFiles], ?_, ?_, ?_⟩
  · unfold analyzeFiles
    rw [List.map_map]
    conv_rhs => rw [← List.map_id files]
    refine List.map_congr_left ?_
    intro q _
    simp only [Function.comp_apply, id_eq]
    cases h : fs q <;> rfl
  · intro j hj hp
    rw [analyzeFiles_getElem? svc fs files j hj, hp, hfail]
  · intro j hj hne
    rw [analyzeFiles_getElem? svc fs files j hj, analyzeFiles_getElem? svc fs' files j hj,
      hagree (files.get ⟨j, hj⟩) hne]

/-- Witness for C1: two files, the second of which fails to read. -/
theorem analyzeFiles_batch_isolation_witness :
    (c1Fs "bad.svelte" = Except.error "ENOENT" ∧
      (∀ q, q ≠ "bad.svelte" → c1Fs' q = c1Fs q)) ∧
    (analyzeFiles none c1Fs ["good.svelte", "bad.svelte"])[1]? =
      some (fileReadErrorResult "bad.svelte" "ENOENT") := by
  have hagree : ∀ q, q ≠ "bad.svelte" → c1Fs' q = c1Fs q := by
    intro q hq
    unfold c1Fs'
    rw [if_neg]
    simp only [beq_iff_eq]
    exact hq
  refine ⟨⟨rfl, hagree⟩, ?_⟩
  exact (analyzeFiles_batch_isolation none c1Fs c1Fs' ["good.svelte", "bad.svelte"]
    "bad.svelte" "ENOENT" rfl hagree).2.2.1 1 (by decide) rfl

/-- C8: when no rule matches any line, the scan returns empty error and
warning sequences; and with both batch totals zero `generate_summary`
returns exactly the positive no-issues message — with no summary block,
no per-file `<details>` sections and no closing resource links. -/
theorem no_issues_scan_and_summary :
    (∀ (filename content : String),
      (∀ line ∈ jsSplit '\n' content.toList, ∀ p ∈ getMigrationPatterns,
          p.test line = false) →
      (analyzeFile none filename content).issues = [] ∧
        (analyzeFile none filename content).warnings = []) ∧
    (∀ results : List AnalysisResult,
      generate_summary results 0 0 = noIssuesSummary ∧
        containsSub "##" (generate_summary results 0 0) = false ∧
        containsSub "<details>" (generate_summary results 0 0) = false ∧
        containsSub "Migration Resources" (generate_summary results 0 0) = false) := by
  constructor
  · intro filename content h
    have hnil := scanLines_no_match h 0
    rw [analyzeFile_issues_def, analyzeFile_warnings_def, hnil]
    exact ⟨rfl, rfl⟩
  · intro results
    have h0 : generate_summary results 0 0 = noIssuesSummary := rfl
    rw [h0]
    exact ⟨rfl, by decide, by decide, by decide⟩

/-- Witness for C8 at a concrete content with no rule match. -/
theorem no_issues_scan_and_summary_witness :
    (∀ line ∈ jsSplit '\n' "hello world".toList, ∀ p ∈ getMigrationPatterns,
        p.test line = false) ∧
    (analyzeFile none "clean.svelte" "hello world").issues = [] ∧
      (analyzeFile none "clean.svelte" "hello world").warnings = [] := by
  have h : ∀ line ∈ jsSplit '\n' "hello world".toList, ∀ p ∈ getMigrationPatterns,
      p.test line = false := by decide
  exact ⟨h, no_issues_scan_and_summary.1 "clean.svelte" "hello world" h⟩

/-! ### Helper lemmas for the suggestion parser -/

lemma dropWhile_head_false {α : Type} (p : α → Bool) :
    ∀ {l : List α} {c : α} {rest : List α}, l.dropWhile p = c :: rest → p c = false := by
  intro l
  induction l with
  | nil => intro c rest h; simp [List.dropWhile] at h
  | cons a l' ih =>
    intro c rest h
    rw [List.dropWhile_cons] at h
    by_cases hp : p a = true
    · rw [if_pos hp] at h
      exact ih h
    · rw [if_neg hp] at h
      cases h
      simpa using hp

lemma dropWhile_idem {α : Type} (p : α → Bool) (l : List α) :
    (l.dropWhile p).dropWhile p = l.dropWhile p := by
  rcases h : l.dropWhile p with _ | ⟨c, rest⟩
  · simp
  · rw [List.dropWhile_cons, if_neg]
    simp [dropWhile_head_false p h]

lemma head_false_of_dropWhile_self {α : Type} (p : α → Bool) (c : α) (m : List α)
    (h : (c :: m).dropWhile p = c :: m) : p c = false := by
  by_cases hp : p c = true
  · rw [List.dropWhile_cons, if_pos hp] at h
    have hlen : (m.dropWhile p).length = m.length + 1 := by rw [h]; simp
    have hle : (m.dropWhile p).length ≤ m.length := (List.dropWhile_sublist (l := m) p).length_le
    omega
  · simpa using hp

lemma dropWhile_append_of_ne_nil {α : Type} (p : α → Bool) :
    ∀ (a : List α), a.dropWhile p ≠ [] → ∀ (b : List α),
      (a ++ b).dropWhile p = a.dropWhile p ++ b := by
  intro a
  induction a with
  | nil => intro h _; simp at h
  | cons c a' ih =>
    intro h b
    by_cases hp : p c = true
    · have h' : a'.dropWhile p ≠ [] := by
        rw [List.dropWhile_cons, if_pos hp] at h
        exact h
      rw [List.cons_append, List.dropWhile_cons, if_pos hp,
        List.dropWhile_cons, if_pos hp, ih h' b]
    · rw [List.cons_append, List.dropWhile_cons, if_neg hp,
        List.dropWhile_cons, if_neg hp, List.cons_append]

lemma dropWhile_append_last {α : Type} (p : α → Bool) (m : List α) (c : α)
    (hc : p c = false) : (m ++ [c]).dropWhile p = m.dropWhile p ++ [c] := by
  induction m with
  | nil => simp [List.dropWhile_cons, hc]
  | cons a m' ih =>
    by_cases hp : p a = true
    · rw [List.cons_append, List.dropWhile_cons, if_pos hp,
        List.dropWhile_cons, if_pos hp, ih]
    · rw [List.cons_append, List.dropWhile_cons, if_neg hp,
        List.dropWhile_cons, if_neg hp, List.cons_append]

lemma trimChars_left_inv (l : List Char) :
    (trimChars l).dropWhile isJsSpace = trimChars l := by
  unfold trimChars
  rcases h : l.dropWhile isJsSpace with _ | ⟨c, m⟩
  · simp
  · have hc : isJsSpace c = false := dropWhile_head_false _ h
    rw [List.reverse_cons, dropWhile_append_last _ _ _ hc, List.reverse_append]
    simp [List.dropWhile_cons, hc]

lemma trimChars_right_inv (l : List Char) :
    (trimChars l).reverse.dropWhile isJsSpace = (trimChars l).reverse := by
  unfold trimChars
  rw [List.reverse_reverse]
  exact dropWhile_idem _ _

lemma trimChars_eq_self (l : List Char) (h1 : l.dropWhile isJsSpace = l)
    (h2 : l.reverse.dropWhile isJsSpace = l.reverse) : trimChars l = l := by
  unfold trimChars
  rw [h1, h2, List.reverse_reverse]

lemma trimChars_idem (l : List Char) : trimChars (trimChars l) = trimChars l :=
  trimChars_eq_self _ (trimChars_left_inv l) (trimChars_right_inv l)

lemma trimChars_eq_of_dropWhile (cur v : List Char) (hv : cur.dropWhile isJsSpace = v)
    (htr : trimChars v = v) : trimChars cur = v := by
  unfold trimChars
  rw [hv]
  have h2 := trimChars_right_inv v
  rw [htr] at h2
  rw [h2, List.reverse_reverse]

lemma trimmed_append (v t : List Char) (hv : v ≠ []) (htv : trimChars v = v)
    (ht : t ≠ []) (htt : trimChars t = t) :
    trimChars (v ++ ' ' :: t) = v ++ ' ' :: t := by
  have hvl : v.dropWhile isJsSpace = v := by
    have := trimChars_left_inv v; rwa [htv] at this
  have htr' : t.reverse.dropWhile isJsSpace = t.reverse := by
    have := trimChars_right_inv t; rwa [htt] at this
  have htne : t.reverse.dropWhile isJsSpace ≠ [] := by
    rw [htr']
    simp [ht]
  cases v with
  | nil => exact absurd rfl hv
  | cons c m =>
    have hc : isJsSpace c = false := head_false_of_dropWhile_self _ _ _ hvl
    apply trimChars_eq_self
    · rw [List.cons_append, List.dropWhile_cons, if_neg (by simp [hc])]
    · rw [List.reverse_append, List.reverse_cons, List.append_assoc,
        dropWhile_append_of_ne_nil _ _ htne, htr']

lemma specUnitsGo_nil : specUnitsGo [] = [] := by
  rw [specUnitsGo]

lemma specUnitsGo_cons (t : List Char) (rest : List (List Char)) :
    specUnitsGo (t :: rest) =
      joinWithSpace t (rest.takeWhile (fun l => !isMarkerLine l)) ::
        specUnitsGo (rest.dropWhile (fun l => !isMarkerLine l)) := by
  rw [specUnitsGo]

lemma joinWithSpace_nil (v : List Char) : joinWithSpace v [] = v := rfl

lemma joinWithSpace_cons (v t : List Char) (xs : List (List Char)) :
    joinWithSpace v (t :: xs) = joinWithSpace (v ++ ' ' :: t) xs := rfl

lemma parseLoop_invariant :
    ∀ (lines : List (List Char)) (cur v : List Char),
      cur.dropWhile isJsSpace = v → v ≠ [] → trimChars v = v →
      (∀ l ∈ lines, trimChars l ≠ []) →
      parseLoop lines cur =
        joinWithSpace v ((lines.map trimChars).takeWhile (fun t => !isMarkerLine t)) ::
          specUnitsGo ((lines.map trimChars).dropWhile (fun t => !isMarkerLine t)) := by
  intro lines
  induction lines with
  | nil =>
    intro cur v hv hne htr _
    have hcur : cur.isEmpty = false := by
      cases cur with
      | nil =>
        simp only [List.dropWhile_nil] at hv
        exact absurd hv.symm hne
      | cons a b => rfl
    simp only [parseLoop, hcur, Bool.false_eq_true, if_false, List.map_nil,
      List.takeWhile_nil, List.dropWhile_nil, specUnitsGo_nil, joinWithSpace_nil]
    rw [trimChars_eq_of_dropWhile cur v hv htr]
  | cons line rest ih =>
    intro cur v hv hne htr hall
    have ht : trimChars line ≠ [] := hall line (List.mem_cons_self _ _)
    have htt : trimChars (trimChars line) = trimChars line := trimChars_idem line
    have hcur : cur.isEmpty = false := by
      cases cur with
      | nil =>
        simp only [List.dropWhile_nil] at hv
        exact absurd hv.symm hne
      | cons a b => rfl
    have hrest : ∀ l ∈ rest, trimChars l ≠ [] := fun l hl => hall l (List.mem_cons_of_mem _ hl)
    simp only [parseLoop]
    by_cases hm : isMarkerLine (trimChars line) = true
    · rw [if_pos hm, hcur]
      simp only [Bool.false_eq_true, if_false]
      rw [trimChars_eq_of_dropWhile cur v hv htr,
        ih (trimChars line) (trimChars line) (trimChars_left_inv line) ht htt hrest,
        List.map_cons, List.takeWhile_cons, List.dropWhile_cons]
      simp only [hm, Bool.not_true, Bool.false_eq_true, if_false, joinWithSpace_nil,
        specUnitsGo_cons, List.singleton_append]
    · rw [if_neg hm]
      have htb : (!(trimChars line).isEmpty) = true := by
        simp [ht]
      rw [if_pos htb]
      have hcne : cur.dropWhile isJsSpace ≠ [] := by
        rw [hv]; exact hne
      have hv' : (cur ++ ' ' :: trimChars line).dropWhile isJsSpace =
          v ++ ' ' :: trimChars line := by
        rw [dropWhile_append_of_ne_nil _ cur hcne, hv]
      have htr' : trimChars (v ++ ' ' :: trimChars line) = v ++ ' ' :: trimChars line :=
        trimmed_append v (trimChars line) hne htr ht htt
      rw [ih (cur ++ ' ' :: trimChars line) (v ++ ' ' :: trimChars line) hv' (by simp) htr' hrest,
        List.map_cons, List.takeWhile_cons, List.dropWhile_cons]
      have hmm : (!isMarkerLine (trimChars line)) = true := by
        simp [hm]
      simp only [hmm, if_true, joinWithSpace_cons]

lemma parseLoop_nil_start :
    ∀ (lines : List (List Char)), (∀ l ∈ lines, trimChars l ≠ []) →
      parseLoop lines [] = specUnitsGo (lines.map trimChars) := by
  intro lines hall
  cases lines with
  | nil => simp [parseLoop, specUnitsGo_nil]
  | cons line rest =>
    have ht : trimChars line ≠ [] := hall line (List.mem_cons_self _ _)
    have htt := trimChars_idem line
    have hrest : ∀ l ∈ rest, trimChars l ≠ [] := fun l hl => hall l (List.mem_cons_of_mem _ hl)
    simp only [parseLoop]
    by_cases hm : isMarkerLine (trimChars line) = true
    · rw [if_pos hm]
      simp only [List.isEmpty_nil, if_true, List.nil_append]
      rw [parseLoop_invariant rest (trimChars line) (trimChars line)
        (trimChars_left_inv line) ht htt hrest, List.map_cons, specUnitsGo_cons]
    · rw [if_neg hm]
      have htb : (!(trimChars line).isEmpty) = true := by
        simp [ht]
      rw [if_pos htb]
      have hv' : (([] : List Char) ++ ' ' :: trimChars line).dropWhile isJsSpace =
          trimChars line := by
        rw [List.nil_append, List.dropWhile_cons, if_pos (by decide)]
        exact trimChars_left_inv line
      rw [parseLoop_invariant rest ([] ++ ' ' :: trimChars line) (trimChars line)
        hv' ht htt hrest, List.map_cons, specUnitsGo_cons]

/-- C6: the embedded `parseClaudeSuggestions` agrees with the
specification's description of the parser — a new unit starts at every
line whose trimmed form begins with a numbered-list or bullet marker,
subsequent non-empty lines are appended to the current unit (never
merged across a marker boundary), and units of trimmed length at most 10
are excluded. -/
theorem parseClaudeSuggestions_eq_spec (response : String) :
    parseClaudeSuggestions response = specSuggestions response := by
  unfold parseClaudeSuggestions specSuggestions
  dsimp only
  have hall : ∀ l ∈ (jsSplit '\n' response.toList).filter
      (fun line => !(trimChars line).isEmpty), trimChars l ≠ [] := by
    intro l hl
    have := (List.mem_filter.mp hl).2
    simpa using this
  rw [parseLoop_nil_start _ hall]
  have hmapfilter : ((jsSplit '\n' response.toList).filter
        (fun line => !(trimChars line).isEmpty)).map trimChars =
      ((jsSplit '\n' response.toList).map trimChars).filter (fun t => !t.isEmpty) := by
    rw [List.filter_map]
    rfl
  rw [hmapfilter]

/-- C10: the parser does not restrict output to marker-initiated units —
when the first non-empty line is not a marker line, the text preceding
the first marker line (its lines joined with single spaces) is itself
returned as a suggestion, provided its length exceeds 10. -/
theorem parseClaudeSuggestions_leading_unit (response : String) (t0 : List Char)
    (rest : List (List Char))
    (hts : ((jsSplit '\n' response.toList).map trimChars).filter (fun t => !t.isEmpty) =
      t0 :: rest)
    (_hm : isMarkerLine t0 = false)
    (hlen : (joinWithSpace t0 (rest.takeWhile (fun l => !isMarkerLine l))).length > 10) :
    String.mk (joinWithSpace t0 (rest.takeWhile (fun l => !isMarkerLine l))) ∈
      parseClaudeSuggestions response := by
  unfold parseClaudeSuggestions
  dsimp only
  have hall : ∀ l ∈ (jsSplit '\n' response.toList).filter
      (fun line => !(trimChars line).isEmpty), trimChars l ≠ [] := by
    intro l hl
    have := (List.mem_filter.mp hl).2
    simpa using this
  rw [parseLoop_nil_start _ hall]
  have hmapfilter : ((jsSplit '\n' response.toList).filter
        (fun line => !(trimChars line).isEmpty)).map trimChars =
      ((jsSplit '\n' response.toList).map trimChars).filter (fun t => !t.isEmpty) := by
    rw [List.filter_map]
    rfl
  rw [hmapfilter, hts, specUnitsGo_cons]
  refine List.mem_map.mpr ⟨joinWithSpace t0 (rest.takeWhile (fun l => !isMarkerLine l)), ?_, rfl⟩
  refine List.mem_filter.mpr ⟨List.mem_cons_self _ _, ?_⟩
  simpa using hlen

/-- Witness for C10: a response whose first two lines precede the first
numbered marker. -/
theorem parseClaudeSuggestions_leading_unit_witness :
    (((jsSplit '\n'
          "Intro line with words\nmore trailing text\n1. first real suggestion".toList).map
            trimChars).filter (fun t => !t.isEmpty) =
        "Intro line with words".toList ::
          ["more trailing text".toList, "1. first real suggestion".toList] ∧
      isMarkerLine "Intro line with words".toList = false) ∧
    String.mk (joinWithSpace "Intro line with words".toList
        (["more trailing text".toList, "1. first real suggestion".toList].takeWhile
          (fun l => !isMarkerLine l))) ∈
      parseClaudeSuggestions "Intro line with words\nmore trailing text\n1. first real suggestion" := by
  refine ⟨⟨by decide, by decide⟩, ?_⟩
  exact parseClaudeSuggestions_leading_unit _ _ _ (by decide) (by decide) (by decide)
